import Mathlib

/-!
Shallow embedding of the chronos-Gaia plant-monitoring application, covering:
the playback watermark scheduler of `LiveAudio.tsx` (`handleAudioData`),
the metadata tag parser and enrichment merge of the main app component
(`parseMetaData`, `captureAndProcess`), the timeline health-color fallback
(`Timeline.tsx`, `getHealthColor`), the capture scheduler effect, the camera
error classification of `CameraFeed.tsx` (`startCamera`), the live-session
teardown, and the base64 audio codec helpers of the service module
(`decodeAudio` / `encodeAudio`).
-/

namespace ChronosGaia

/-! ## Live audio playback watermark scheduling (`LiveAudio.tsx`, `handleAudioData`)

The source keeps a mutable `nextStartTimeRef` (initially 0).  For each inbound
buffer it computes `startTime = max(currentTime, nextStartTimeRef.current)`,
starts the buffer at `startTime`, and advances the ref to
`startTime + audioBuffer.duration`.  We embed the body as a state-passing
function on the watermark, and the arrival sequence as a fold. -/

/-- One call of `handleAudioData`: given the current watermark
(`nextStartTimeRef.current`), the audio-context clock (`currentTime`) and the
decoded buffer duration, return the scheduled start time and the new
watermark.  Mirrors `LiveAudio.tsx` lines 118-121. -/
def handleAudioData (nextStartTime currentTime bufferDuration : ℚ) : ℚ × ℚ :=
  let startTime := max currentTime nextStartTime
  (startTime, startTime + bufferDuration)

/-- Run `handleAudioData` over a sequence of inbound buffers, each given as
(arrival/clock time, duration); returns the list of (scheduled start, duration)
pairs. -/
def schedulePairs (wm : ℚ) : List (ℚ × ℚ) → List (ℚ × ℚ)
  | [] => []
  | (now, dur) :: rest =>
      let r := handleAudioData wm now dur
      (r.1, dur) :: schedulePairs r.2 rest

/-- The scheduled start times only. -/
def scheduleStarts (wm : ℚ) (l : List (ℚ × ℚ)) : List ℚ :=
  (schedulePairs wm l).map Prod.fst

theorem schedulePairs_cons (wm now dur : ℚ) (rest : List (ℚ × ℚ)) :
    schedulePairs wm ((now, dur) :: rest) =
      (max now wm, dur) :: schedulePairs (max now wm + dur) rest := rfl

/-- Every start produced from watermark `wm` is at least `wm`. -/
theorem schedulePairs_head_ge (wm : ℚ) (l : List (ℚ × ℚ)) :
    ∀ p ∈ (schedulePairs wm l).head?, wm ≤ p.1 := by
  cases l with
  | nil => intro p hp; simp [schedulePairs] at hp
  | cons a rest =>
      intro p hp
      obtain ⟨now, dur⟩ := a
      rw [schedulePairs_cons] at hp
      simp only [List.head?_cons, Option.mem_def, Option.some.injEq] at hp
      subst hp
      exact le_max_right _ _

theorem schedulePairs_no_overlap (wm : ℚ) (l : List (ℚ × ℚ)) :
    List.Chain' (fun p q => p.1 + p.2 ≤ q.1) (schedulePairs wm l) := by
  induction l generalizing wm with
  | nil => simp [schedulePairs]
  | cons a rest ih =>
      obtain ⟨now, dur⟩ := a
      rw [schedulePairs_cons]
      refine List.chain'_cons'.mpr ⟨?_, ih _⟩
      intro q hq
      exact le_trans (le_of_eq rfl) (schedulePairs_head_ge _ _ q hq)

/-- Claim C1: each inbound audio buffer is scheduled at
`startTime = max(currentTime, watermark)` and the watermark then advances to
`startTime + duration`; consequently consecutive scheduled buffers never
overlap (`start + duration ≤ next start`), and for 0.5 s buffers arriving at
clock times 0, 0.2 and 1.5 the actual start times are 0, 0.5 and 1.5. -/
theorem audio_watermark_scheduling :
    (∀ wm now dur rest, scheduleStarts wm ((now, dur) :: rest) =
        max now wm :: scheduleStarts (max now wm + dur) rest) ∧
    (∀ wm l, List.Chain' (fun p q => p.1 + p.2 ≤ q.1) (schedulePairs wm l)) ∧
    scheduleStarts 0 [(0, 1/2), (1/5, 1/2), (3/2, 1/2)] = [0, 1/2, 3/2] := by
  refine ⟨fun wm now dur rest => rfl, schedulePairs_no_overlap, ?_⟩
  simp only [scheduleStarts, schedulePairs, handleAudioData, List.map_cons, List.map_nil]
  norm_num [max_def]

/-! ## Data model (`types.ts`) -/

/-- The `healthStatus` union type of `CapturedImage` in `types.ts`. -/
inductive HealthStatus where
  | HEALTHY
  | STRESSED
  | CRITICAL
deriving DecidableEq, Repr

/-- `CapturedImage` from `types.ts`: optional fields become `Option`. -/
structure CapturedImage where
  id : String
  timestamp : Nat
  dataUrl : String
  analysis : Option String := none
  confidence : Option Nat := none
  growthStage : Option String := none
  eventTags : Option (List String) := none
  healthStatus : Option HealthStatus := none
  advice : Option String := none
deriving DecidableEq, Repr

/-- The record returned by `parseMetaData` in the app component: it carries
only `confidence` and `healthStatus` (each possibly `undefined`). -/
structure MetaData where
  confidence : Option Nat
  healthStatus : Option HealthStatus
deriving DecidableEq, Repr

/-! ## The metadata tag parser (`parseMetaData`)

The source applies the regexes
`/\[CONFIDENCE:\s*(\d+)%?\]/i` and `/\[HEALTH:\s*(HEALTHY|STRESSED|CRITICAL)\]/i`
to the free-form analysis text and takes the first match of each.  We embed
the two regexes as left-to-right scanners.  The opening bracket is compared
exactly (the `i` flag only affects cased letters); the alphabetic parts are
compared case-insensitively via `Char.toLower`, which is exactly what the
`i` flag does on ASCII.  `\s` is modelled as the common whitespace characters;
the greedy `(\d+)` is a maximal digit run (equivalent here: shortening the
digit run always leaves a digit where the regex next requires `%` or `]`). -/

/-- Whitespace as matched by the regex class `\s` (ASCII part). -/
def isSpaceChar (c : Char) : Bool :=
  c = ' ' || c = '\t' || c = '\n' || c = '\r' || c = '\x0b' || c = '\x0c'

/-- Case-insensitive literal match: consume `pat` from the front of the input,
returning the rest on success. -/
def matchCI : List Char → List Char → Option (List Char)
  | [], cs => some cs
  | _ :: _, [] => none
  | p :: ps, c :: cs => if c.toLower = p.toLower then matchCI ps cs else none

/-- Consume `\s*`. -/
def dropSpaces : List Char → List Char
  | [] => []
  | c :: cs => if isSpaceChar c then dropSpaces cs else c :: cs

/-- Consume a maximal digit run (`\d*`), returning it and the rest. -/
def takeDigits : List Char → List Char × List Char
  | [] => ([], [])
  | c :: cs =>
      if c.isDigit then
        let r := takeDigits cs
        (c :: r.1, r.2)
      else ([], c :: cs)

/-- `parseInt` on a nonempty decimal digit run. -/
def digitsToNat (ds : List Char) : Nat :=
  ds.foldl (fun a c => a * 10 + (c.toNat - 48)) 0

/-- Try `/\[CONFIDENCE:\s*(\d+)%?\]/i` anchored at the current position. -/
def confidenceAt (cs : List Char) : Option Nat :=
  match cs with
  | '[' :: rest =>
      match matchCI "CONFIDENCE:".data rest with
      | none => none
      | some r1 =>
          match takeDigits (dropSpaces r1) with
          | ([], _) => none
          | (d :: ds, r3) =>
              match r3 with
              | '%' :: ']' :: _ => some (digitsToNat (d :: ds))
              | ']' :: _ => some (digitsToNat (d :: ds))
              | _ => none
  | _ => none

/-- Leftmost match of the confidence regex (JS `String.match` semantics). -/
def findConfidence : List Char → Option Nat
  | [] => none
  | c :: cs =>
      match confidenceAt (c :: cs) with
      | some n => some n
      | none => findConfidence cs

/-- Try `/\[HEALTH:\s*(HEALTHY|STRESSED|CRITICAL)\]/i` anchored at the current
position; the captured keyword is upper-cased by the source, which our
canonical `HealthStatus` constructors already reflect. -/
def healthAt (cs : List Char) : Option HealthStatus :=
  match cs with
  | '[' :: rest =>
      match matchCI "HEALTH:".data rest with
      | none => none
      | some r1 =>
          let r2 := dropSpaces r1
          match matchCI "HEALTHY]".data r2 with
          | some _ => some .HEALTHY
          | none =>
              match matchCI "STRESSED]".data r2 with
              | some _ => some .STRESSED
              | none =>
                  match matchCI "CRITICAL]".data r2 with
                  | some _ => some .CRITICAL
                  | none => none
  | _ => none

/-- Leftmost match of the health regex. -/
def findHealth : List Char → Option HealthStatus
  | [] => none
  | c :: cs =>
      match healthAt (c :: cs) with
      | some h => some h
      | none => findHealth cs

/-- `parseMetaData` from the app component (src/unnamed/part_002 lines
146-153): regex-extract confidence and health, leaving a field `undefined`
when its tag misses. -/
def parseMetaData (text : String) : MetaData :=
  { confidence := findConfidence text.data
    healthStatus := findHealth text.data }

theorem confidenceAt_ne_bracket {c : Char} (cs : List Char) (h : c ≠ '[') :
    confidenceAt (c :: cs) = none := by
  unfold confidenceAt
  split
  · rename_i heq; injection heq with h1 _; exact absurd h1 h
  · rfl

theorem healthAt_ne_bracket {c : Char} (cs : List Char) (h : c ≠ '[') :
    healthAt (c :: cs) = none := by
  unfold healthAt
  split
  · rename_i heq; injection heq with h1 _; exact absurd h1 h
  · rfl

theorem findConfidence_no_bracket (cs : List Char) (h : '[' ∉ cs) :
    findConfidence cs = none := by
  induction cs with
  | nil => rfl
  | cons c rest ih =>
      have hc : c ≠ '[' := fun hh => h (hh ▸ List.mem_cons_self c rest)
      have hrest : '[' ∉ rest := fun hh => h (List.mem_cons_of_mem c hh)
      simp only [findConfidence, confidenceAt_ne_bracket rest hc, ih hrest]

theorem findHealth_no_bracket (cs : List Char) (h : '[' ∉ cs) :
    findHealth cs = none := by
  induction cs with
  | nil => rfl
  | cons c rest ih =>
      have hc : c ≠ '[' := fun hh => h (hh ▸ List.mem_cons_self c rest)
      have hrest : '[' ∉ rest := fun hh => h (List.mem_cons_of_mem c hh)
      simp only [findHealth, healthAt_ne_bracket rest hc, ih hrest]

/-! ## Timeline health color fallback (`Timeline.tsx`, `getHealthColor`)

Priority: explicit `healthStatus` metadata, then a keyword scan over the
lower-cased raw analysis text, then a default.  This function only produces a
CSS class string for display; it never writes any artifact field. -/

/-- JS `String.includes`: `pat` occurs as a contiguous substring of `hay`. -/
def containsSub (hay pat : List Char) : Bool :=
  match hay with
  | [] => pat.isEmpty
  | _ :: tl => pat.isPrefixOf hay || containsSub tl pat

/-- `getHealthColor` from `Timeline.tsx` lines 11-24. -/
def getHealthColor (img : CapturedImage) : String :=
  if img.healthStatus = some .CRITICAL then
    "border-red-500 shadow-[0_0_10px_rgba(239,68,68,0.4)]"
  else if img.healthStatus = some .STRESSED then
    "border-yellow-500 shadow-[0_0_10px_rgba(234,179,8,0.4)]"
  else if img.healthStatus = some .HEALTHY then
    "border-cyber-accent shadow-[0_0_10px_rgba(132,204,22,0.4)]"
  else
    match img.analysis with
    | none => "border-cyber-700"
    | some a =>
        let t := a.data.map Char.toLower
        if containsSub t "dead".data || containsSub t "disease".data ||
            containsSub t "pest".data || containsSub t "rot".data ||
            containsSub t "critical".data then
          "border-red-500 shadow-[0_0_10px_rgba(239,68,68,0.4)]"
        else if containsSub t "wilt".data || containsSub t "yellow".data ||
            containsSub t "dry".data || containsSub t "spot".data then
          "border-yellow-500 shadow-[0_0_10px_rgba(234,179,8,0.4)]"
        else "border-cyber-accent shadow-[0_0_10px_rgba(132,204,22,0.4)]"

/-! ## Capture and enrichment (`captureAndProcess`, app component lines 122-138)

A capture appends `{ id: Date.now().toString(), timestamp: Date.now(), dataUrl }`
to the timeline.  When auto-analysis resolves it runs
`setImages(prev => prev.map(img => img.id === newImage.id ? { ...img, analysis, ...metadata } : img))`.
Note that the object spread `...metadata` copies the keys `confidence` and
`healthStatus` even when their values are `undefined`, and copies nothing
else, so the merge overwrites exactly those two fields plus `analysis`. -/

/-- The freshly captured artifact: identifier is the decimal string of the
capture time in milliseconds (`Date.now().toString()`). -/
def mkCapturedImage (nowMs : Nat) (dataUrl : String) : CapturedImage :=
  { id := Nat.repr nowMs, timestamp := nowMs, dataUrl := dataUrl }

/-- The enrichment merge `{ ...img, analysis, ...metadata }` applied to one
artifact. -/
def enrichImage (analysis : String) (m : MetaData) (img : CapturedImage) :
    CapturedImage :=
  { img with
      analysis := some analysis
      confidence := m.confidence
      healthStatus := m.healthStatus }

/-- The `setImages` updater: enrich the artifact whose `id` matches, leave all
others alone. -/
def applyEnrichment (targetId : String) (analysis : String) (m : MetaData)
    (images : List CapturedImage) : List CapturedImage :=
  images.map fun img => if img.id = targetId then enrichImage analysis m img else img

/-- A text contains a `[CONFIDENCE: NN%]` tag exactly when the anchored tag
grammar matches at some position, i.e. at the start of some suffix of the
text.  The leftmost scan returns nothing precisely in the tag-free case. -/
theorem findConfidence_eq_none_iff (cs : List Char) :
    findConfidence cs = none ↔ ∀ t ∈ cs.tails, confidenceAt t = none := by
  induction cs with
  | nil => decide
  | cons c rest ih =>
      rw [List.tails_cons]
      constructor
      · intro h t ht
        cases hca : confidenceAt (c :: rest) with
        | some n => simp [findConfidence, hca] at h
        | none =>
            simp only [findConfidence, hca] at h
            rcases List.mem_cons.mp ht with rfl | ht2
            · exact hca
            · exact (ih.mp h) t ht2
      · intro h
        have h0 : confidenceAt (c :: rest) = none :=
          h _ (List.mem_cons_self _ _)
        simp only [findConfidence, h0]
        exact ih.mpr fun t ht => h t (List.mem_cons_of_mem _ ht)

/-- Same scan characterization for the `[HEALTH: ...]` tag. -/
theorem findHealth_eq_none_iff (cs : List Char) :
    findHealth cs = none ↔ ∀ t ∈ cs.tails, healthAt t = none := by
  induction cs with
  | nil => decide
  | cons c rest ih =>
      rw [List.tails_cons]
      constructor
      · intro h t ht
        cases hca : healthAt (c :: rest) with
        | some n => simp [findHealth, hca] at h
        | none =>
            simp only [findHealth, hca] at h
            rcases List.mem_cons.mp ht with rfl | ht2
            · exact hca
            · exact (ih.mp h) t ht2
      · intro h
        have h0 : healthAt (c :: rest) = none :=
          h _ (List.mem_cons_self _ _)
        simp only [findHealth, h0]
        exact ih.mpr fun t ht => h t (List.mem_cons_of_mem _ ht)

/-- Claim C2: parsing `"[HEALTH: CRITICAL][CONFIDENCE: 87%]"` yields
health = CRITICAL and confidence = 87.  Each field is left unset precisely
when the text contains no matching tag — "contains a tag" meaning the
anchored bracket-tag grammar matches at some position of the text — which
covers bracket-containing but tag-free texts such as
`"[HEALTH: GOOD][NOTE: wilting] plant"` as well as bracket-free ones.  The
keyword fallback of `getHealthColor` only picks a display color: on the
keyword-only text `"The plant looks dead and dry"` both parsed fields stay
unset while the timeline still shows the red (critical) border class. -/
theorem metadata_parser_tags_and_fallback :
    parseMetaData "[HEALTH: CRITICAL][CONFIDENCE: 87%]" =
      { confidence := some 87, healthStatus := some .CRITICAL } ∧
    (∀ cs : List Char,
      findConfidence cs = none ↔ ∀ t ∈ cs.tails, confidenceAt t = none) ∧
    (∀ cs : List Char,
      findHealth cs = none ↔ ∀ t ∈ cs.tails, healthAt t = none) ∧
    parseMetaData "[HEALTH: GOOD][NOTE: wilting] plant" =
      { confidence := none, healthStatus := none } ∧
    parseMetaData "The plant looks dead and dry" =
      { confidence := none, healthStatus := none } ∧
    getHealthColor
        { mkCapturedImage 0 "data" with analysis := some "The plant looks dead and dry" } =
      "border-red-500 shadow-[0_0_10px_rgba(239,68,68,0.4)]" := by
  exact ⟨by decide, findConfidence_eq_none_iff, findHealth_eq_none_iff,
    by decide, by decide, by decide⟩

/-- Witness for C2: the tag-free characterization applied to a concrete
bracket-containing but tag-free text. -/
theorem metadata_parser_tags_and_fallback_witness :
    findConfidence "[NOTE: wilting] plant".data = none ∧
    findHealth "[NOTE: wilting] plant".data = none :=
  ⟨(metadata_parser_tags_and_fallback.2.1 "[NOTE: wilting] plant".data).mpr
      (by decide),
    (metadata_parser_tags_and_fallback.2.2.1 "[NOTE: wilting] plant".data).mpr
      (by decide)⟩

/-- Claim C3: the enrichment merge targets an identifier.  If no entry of the
timeline carries the identifier (e.g. the timeline was purged while the
analysis was in flight), the merge returns the list unchanged — it neither
resurrects the entry nor fails; it always preserves the length, and it
rewrites exactly the entries whose `id` matches, leaving every other position
untouched. -/
theorem enrichment_identifier_match (targetId analysis : String) (m : MetaData)
    (images : List CapturedImage) :
    ((∀ img ∈ images, img.id ≠ targetId) →
        applyEnrichment targetId analysis m images = images) ∧
    (applyEnrichment targetId analysis m images).length = images.length ∧
    (∀ k (h : k < (applyEnrichment targetId analysis m images).length)
        (h2 : k < images.length),
        (applyEnrichment targetId analysis m images).get ⟨k, h⟩ =
          if (images.get ⟨k, h2⟩).id = targetId
          then enrichImage analysis m (images.get ⟨k, h2⟩)
          else images.get ⟨k, h2⟩) := by
  refine ⟨?_, by simp [applyEnrichment], ?_⟩
  · intro h
    unfold applyEnrichment
    induction images with
    | nil => rfl
    | cons a tl ih =>
        have ha : a.id ≠ targetId := h a (List.mem_cons_self a tl)
        simp only [List.map_cons, if_neg ha, List.cons.injEq, true_and]
        exact ih fun img hm => h img (List.mem_cons_of_mem a hm)
  · intro k h h2
    simp [applyEnrichment, List.get_eq_getElem, List.getElem_map]

/-- Witness for C3: a purged (empty) timeline stays empty, and on a two-entry
timeline only the matching entry is rewritten. -/
theorem enrichment_identifier_match_witness :
    applyEnrichment "7" "txt" { confidence := none, healthStatus := none } [] = [] ∧
    (applyEnrichment "1" "txt" { confidence := some 3, healthStatus := none }
        [mkCapturedImage 1 "a", mkCapturedImage 2 "b"]).get ⟨1, by decide⟩ =
      mkCapturedImage 2 "b" := by
  constructor
  · exact (enrichment_identifier_match "7" "txt"
      { confidence := none, healthStatus := none } []).1 (by simp)
  · rw [(enrichment_identifier_match "1" "txt"
      { confidence := some 3, healthStatus := none }
      [mkCapturedImage 1 "a", mkCapturedImage 2 "b"]).2.2 1 (by decide) (by decide)]
    decide

/-- Analysis text carrying every tag of the fixed bracket-tag grammar the
vision prompt requests. -/
def allTagsAnalysis : String :=
  "[HEALTH: HEALTHY][STAGE: flowering][TAGS: bloom][ADVICE: water daily][CONFIDENCE: 90%]"

/-- Claim C7 (code evaluated at the failing input): the enrichment merge does
populate `confidence` and `healthStatus` from the bracket tags, but even when
the analysis text carries `[STAGE: ...]` and `[ADVICE: ...]` tags — which the
vision prompt explicitly requests and the timeline UI renders — the merged
artifact's `growthStage` and `advice` fields stay unset: `parseMetaData`
extracts only the confidence and health tags, and the merge never writes the
other two fields. -/
theorem stage_and_advice_never_populated :
    (enrichImage allTagsAnalysis (parseMetaData allTagsAnalysis)
        (mkCapturedImage 0 "d")).confidence = some 90 ∧
    (enrichImage allTagsAnalysis (parseMetaData allTagsAnalysis)
        (mkCapturedImage 0 "d")).healthStatus = some .HEALTHY ∧
    (enrichImage allTagsAnalysis (parseMetaData allTagsAnalysis)
        (mkCapturedImage 0 "d")).analysis = some allTagsAnalysis ∧
    (enrichImage allTagsAnalysis (parseMetaData allTagsAnalysis)
        (mkCapturedImage 0 "d")).growthStage = none ∧
    (enrichImage allTagsAnalysis (parseMetaData allTagsAnalysis)
        (mkCapturedImage 0 "d")).advice = none ∧
    (∀ a m img, (enrichImage a m img).growthStage = img.growthStage ∧
        (enrichImage a m img).advice = img.advice) :=
  ⟨by decide, by decide, rfl, rfl, rfl, fun a m img => ⟨rfl, rfl⟩⟩

/-! ## Artifact identifiers (`id: Date.now().toString()`)

The identifier of a captured artifact is the decimal string of the capture
time in milliseconds.  We prove that `Nat.repr` (decimal printing) is
injective, so identifiers collide exactly when the millisecond timestamps
coincide. -/

theorem toDigitsCore_eq_digits (f : Nat) :
    ∀ n acc, n < f → 0 < n →
      Nat.toDigitsCore 10 f n acc =
        ((Nat.digits 10 n).map Nat.digitChar).reverse ++ acc := by
  induction f with
  | zero => intro n acc hf _; omega
  | succ f ih =>
      intro n acc hf hn
      have hd : Nat.digits 10 n = n % 10 :: Nat.digits 10 (n / 10) :=
        Nat.digits_def' (by norm_num) hn
      by_cases hdiv : n / 10 = 0
      · simp only [Nat.toDigitsCore, hdiv, if_true]
        rw [hd, hdiv]
        simp
      · have hlt : n / 10 < n := Nat.div_lt_self hn (by norm_num)
        have hpos : 0 < n / 10 := Nat.pos_of_ne_zero hdiv
        simp only [Nat.toDigitsCore, hdiv, if_false]
        rw [ih (n / 10) _ (by omega) hpos, hd]
        simp

theorem nat_repr_eq_digits (n : Nat) (hn : 0 < n) :
    Nat.repr n = (((Nat.digits 10 n).map Nat.digitChar).reverse).asString := by
  unfold Nat.repr Nat.toDigits
  rw [toDigitsCore_eq_digits (n + 1) n [] (Nat.lt_succ_self n) hn, List.append_nil]

theorem digitChar_injOn : ∀ a < 10, ∀ b < 10,
    Nat.digitChar a = Nat.digitChar b → a = b := by decide

theorem map_digitChar_injOn (l1 : List Nat) :
    ∀ l2, (∀ x ∈ l1, x < 10) → (∀ x ∈ l2, x < 10) →
      l1.map Nat.digitChar = l2.map Nat.digitChar → l1 = l2 := by
  induction l1 with
  | nil =>
      intro l2 _ _ h
      cases l2 with
      | nil => rfl
      | cons b tl2 => simp at h
  | cons a tl ih =>
      intro l2 h1 h2 h
      cases l2 with
      | nil => simp at h
      | cons b tl2 =>
          simp only [List.map_cons, List.cons.injEq] at h
          have hab : a = b :=
            digitChar_injOn a (h1 a (List.mem_cons_self a tl))
              b (h2 b (List.mem_cons_self b tl2)) h.1
          subst hab
          rw [ih tl2 (fun x hx => h1 x (List.mem_cons_of_mem a hx))
            (fun x hx => h2 x (List.mem_cons_of_mem a hx)) h.2]

theorem asString_inj {l1 l2 : List Char} (h : l1.asString = l2.asString) :
    l1 = l2 :=
  congrArg String.data h

theorem repr_singleton_zero (b : Nat) (hb : 0 < b)
    (h : ((Nat.digits 10 b).map Nat.digitChar).reverse = ['0']) : False := by
  have hmap : (Nat.digits 10 b).map Nat.digitChar = ['0'] := by
    have := congrArg List.reverse h
    simpa using this
  cases hdig : Nat.digits 10 b with
  | nil =>
      rw [hdig] at hmap; simp at hmap
  | cons d tl =>
      rw [hdig] at hmap
      simp only [List.map_cons, List.cons.injEq, List.map_eq_nil_iff] at hmap
      have hdlt : d < 10 := Nat.digits_lt_base (by norm_num)
        (by rw [hdig]; exact List.mem_cons_self d tl)
      have hd0 : d = 0 := digitChar_injOn d hdlt 0 (by norm_num) (by
        rw [hmap.1]; rfl)
      have := Nat.ofDigits_digits 10 b
      rw [hdig, hmap.2, hd0] at this
      simp [Nat.ofDigits] at this
      omega

theorem nat_repr_injective : Function.Injective Nat.repr := by
  intro a b h
  rcases Nat.eq_zero_or_pos a with ha | ha <;> rcases Nat.eq_zero_or_pos b with hb | hb
  · rw [ha, hb]
  · exfalso
    subst ha
    rw [nat_repr_eq_digits b hb] at h
    have h0 : Nat.toDigits 10 0 = ['0'] := rfl
    exact repr_singleton_zero b hb (((asString_inj h).symm).trans h0)
  · exfalso
    subst hb
    rw [nat_repr_eq_digits a ha] at h
    have h0 : Nat.toDigits 10 0 = ['0'] := rfl
    exact repr_singleton_zero a ha ((asString_inj h).trans h0)
  · rw [nat_repr_eq_digits a ha, nat_repr_eq_digits b hb] at h
    have hrev := asString_inj h
    have hmap : (Nat.digits 10 a).map Nat.digitChar =
        (Nat.digits 10 b).map Nat.digitChar := by
      have := congrArg List.reverse hrev
      simpa using this
    have hdig : Nat.digits 10 a = Nat.digits 10 b :=
      map_digitChar_injOn _ _
        (fun x hx => Nat.digits_lt_base (by norm_num) hx)
        (fun x hx => Nat.digits_lt_base (by norm_num) hx) hmap
    have := congrArg (Nat.ofDigits 10) hdig
    rwa [Nat.ofDigits_digits, Nat.ofDigits_digits] at this

/-- Counterexample to claim C6 as stated: two distinct artifacts captured in
the same millisecond (`Date.now()` returns the same value for both) receive
the same identifier. -/
theorem artifact_id_same_millisecond_collision :
    mkCapturedImage 5 "frameA" ≠ mkCapturedImage 5 "frameB" ∧
    (mkCapturedImage 5 "frameA").id = (mkCapturedImage 5 "frameB").id := by
  constructor <;> decide

/-- Claim C6 (amended): identifiers are time-derived (the decimal string of
the capture millisecond), and artifacts captured at distinct milliseconds
always get distinct identifiers; only same-millisecond captures collide. -/
theorem artifact_id_unique_for_distinct_times (t1 t2 : Nat) (d1 d2 : String)
    (h : t1 ≠ t2) :
    (mkCapturedImage t1 d1).id ≠ (mkCapturedImage t2 d2).id := by
  intro hh
  exact h (nat_repr_injective hh)

/-- Witness for the amended C6 at concrete distinct timestamps. -/
theorem artifact_id_unique_for_distinct_times_witness :
    (mkCapturedImage 1 "a").id ≠ (mkCapturedImage 2 "b").id :=
  artifact_id_unique_for_distinct_times 1 2 "a" "b" (by decide)

/-! ## Capture scheduler (app component, `useEffect` lines 96-105)

The effect body is:
if active, schedule `setTimeout(captureAndProcess, 1000)` when the history is
empty, and `setInterval(captureAndProcess, intervalMs)`; the cleanup (run
before a re-run and on deactivation) is `clearInterval(intervalRef.current)` —
it clears only the interval, never a pending timeout.  We model browser
timers by their fire counts: a one-shot fires once at its deadline; an
interval started at `s` with period `p` fires at `s + p, s + 2p, ...` until it
is cleared. -/

/-- A browser timer as used by the scheduler effect. -/
inductive BrowserTimer where
  | oneshot (fireAt : Nat)
  | periodic (period : Nat) (startedAt : Nat) (clearedAt : Option Nat)
deriving DecidableEq, Repr

/-- Number of times a timer has fired by time `t` (platform semantics of
`setTimeout` / `setInterval` / `clearInterval`). -/
def timerFiresBy : BrowserTimer → Nat → Nat
  | .oneshot f, t => if f ≤ t then 1 else 0
  | .periodic p s none, t => (t - s) / p
  | .periodic p s (some c), t => (min c t - s) / p

/-- Total capture triggers by time `t` over a set of timers. -/
def countFiresBy (ts : List BrowserTimer) (t : Nat) : Nat :=
  (ts.map (timerFiresBy · t)).sum

/-- The effect body run at time `now` (app component lines 96-105): when
`active`, a one-shot capture after a fixed 1000 ms delay if the history is
empty, plus the periodic capture interval; when inactive, nothing. -/
def schedulerEffect (now : Nat) (active : Bool) (imagesLen intervalMs : Nat) :
    List BrowserTimer :=
  if active then
    (if imagesLen = 0 then [.oneshot (now + 1000)] else []) ++
      [.periodic intervalMs now none]
  else []

/-- The effect cleanup `clearInterval(intervalRef.current)`: stops the live
interval at time `c`; pending timeouts are not touched. -/
def clearIntervalAt (c : Nat) : BrowserTimer → BrowserTimer
  | .periodic p s none => .periodic p s (some c)
  | t => t

/-- A dependency change (`active` or `settings.intervalHours`) at time `t1`:
React runs the cleanup on the old timers, then the effect body again. -/
def rerunAt (t1 : Nat) (active : Bool) (imagesLen newIntervalMs : Nat)
    (old : List BrowserTimer) : List BrowserTimer :=
  old.map (clearIntervalAt t1) ++ schedulerEffect t1 active imagesLen newIntervalMs

/-- Claim C4: for every interval `I > 0`, activating at time 0 with an empty
history triggers exactly one immediate capture (once 1000 ms have passed) plus
exactly `⌊t / I⌋` periodic captures by time `t`; activating with a non-empty
history triggers only the periodic cadence; a cleared interval fires nothing
after its clearing time (deactivation stops the cadence), and deactivation
itself schedules nothing. -/
theorem scheduler_activation_cadence (I t : Nat) (hI : 0 < I) :
    countFiresBy (schedulerEffect 0 true 0 I) t =
      (if 1000 ≤ t then 1 else 0) + t / I ∧
    (∀ n, n ≠ 0 → countFiresBy (schedulerEffect 0 true n I) t = t / I) ∧
    (∀ p s c u, c ≤ u →
      timerFiresBy (.periodic p s (some c)) u =
        timerFiresBy (.periodic p s (some c)) c) ∧
    (∀ now n J, schedulerEffect now false n J = []) := by
  refine ⟨?_, ?_, ?_, fun now n J => rfl⟩
  · simp [schedulerEffect, countFiresBy, timerFiresBy]
  · intro n hn
    simp [schedulerEffect, countFiresBy, timerFiresBy, hn]
  · intro p s c u hcu
    simp [timerFiresBy, Nat.min_eq_left hcu, Nat.min_self]

/-- Witness for C4: activation with empty history at interval 3600000 ms,
observed at t = 7500000 ms, yields 1 immediate + 2 periodic captures; with a
non-empty history only the 2 periodic ones. -/
theorem scheduler_activation_cadence_witness :
    countFiresBy (schedulerEffect 0 true 0 3600000) 7500000 = 3 ∧
    countFiresBy (schedulerEffect 0 true 4 3600000) 7500000 = 2 := by
  have h := scheduler_activation_cadence 3600000 7500000 (by decide)
  constructor
  · rw [h.1]; decide
  · rw [h.2.1 4 (by decide)]

/-- Counterexample to claim C5 as stated: change the interval at t1 = 500 ms
(history still empty: nothing has fired by then).  The effect re-run schedules
a second immediate one-shot at 1500 ms in addition to the pending one at
1000 ms, so by t = 2000 ms two captures have fired, although the new periodic
cadence alone contributes none and, with no interval change at all, only one
capture (the activation one-shot) would have fired.  The interval change
itself thus causes an extra capture beyond the new periodic cadence. -/
theorem interval_change_extra_capture_cex :
    countFiresBy (schedulerEffect 0 true 0 10000) 500 = 0 ∧
    countFiresBy (rerunAt 500 true 0 10000 (schedulerEffect 0 true 0 10000)) 2000 = 2 ∧
    countFiresBy (schedulerEffect 0 true 0 10000) 2000 = 1 ∧
    timerFiresBy (.periodic 10000 500 none) 2000 = 0 := by
  refine ⟨by decide, by decide, by decide, by decide⟩

/-- Claim C5 (amended): changing the interval while active clears the old
periodic timer before starting the new one, so with a non-empty capture
history the captures are exactly the old cadence up to the change plus the
new cadence after it — no double-firing and no extra capture.  (With an empty
history the re-run also schedules an extra immediate capture, which the
counterexample above exhibits.) -/
theorem interval_change_no_double_fire (I1 I2 t1 t n : Nat) (ht : t1 ≤ t)
    (hn : n ≠ 0) :
    countFiresBy (rerunAt t1 true n I2 [.periodic I1 0 none]) t =
      t1 / I1 + (t - t1) / I2 := by
  simp [rerunAt, schedulerEffect, clearIntervalAt, countFiresBy, timerFiresBy,
    hn, Nat.min_eq_left ht]

/-- Witness for the amended C5: old cadence 1000 ms, change at 3500 ms to
2000 ms, observed at 8000 ms: 3 old fires + 2 new fires. -/
theorem interval_change_no_double_fire_witness :
    countFiresBy (rerunAt 3500 true 1 2000 [.periodic 1000 0 none]) 8000 = 5 := by
  rw [interval_change_no_double_fire 1000 2000 3500 8000 1 (by decide) (by decide)]

/-! ## Camera acquisition errors (`CameraFeed.tsx`, `startCamera` lines 55-101)

`startCamera` awaits `getUserMedia`; on failure it inspects `err.name` and
sets an inline error record `{message, type}` (default `"unknown"`), never
rethrowing; `finally` clears the initializing flag.  The error branch renders
a retry button wired back to `startCamera`. -/

/-- The three error categories of the catch block. -/
inductive CameraErrorType where
  | permission
  | hardware
  | unknown
deriving DecidableEq, Repr

/-- The inline error record set by `setError`. -/
structure CameraError where
  message : String
  errType : CameraErrorType
deriving DecidableEq, Repr

/-- The classification of the catch block of `startCamera` (lines 84-97),
keyed on the platform error name. -/
def classifyCameraError (errName : String) : CameraError :=
  if errName = "NotAllowedError" ∨ errName = "PermissionDeniedError" then
    { message := "Camera access denied by user. Check browser settings."
      errType := .permission }
  else if errName = "NotFoundError" ∨ errName = "DevicesNotFoundError" then
    { message := "No compatible optics found on this hardware."
      errType := .hardware }
  else
    { message := "Camera Optics Malfunction. Check Permissions."
      errType := .unknown }

/-- The component state `startCamera` leaves behind. -/
structure CameraState where
  error : Option CameraError
  srcObject : Option String
  isInitializing : Bool
deriving DecidableEq, Repr

/-- `startCamera`, with the `getUserMedia` outcome as input: a live stream
handle is installed on success; a typed inline error is installed on failure;
either way `isInitializing` is cleared by the `finally` block and nothing is
thrown. -/
def startCamera (outcome : Except String String) : CameraState :=
  match outcome with
  | .ok stream => { error := none, srcObject := some stream, isInitializing := false }
  | .error errName =>
      { error := some (classifyCameraError errName), srcObject := none
        isInitializing := false }

/-- Claim C8: every acquisition failure is classified into exactly one of the
three categories, from the platform error name: the two permission names map
to `permission`, the two missing-device names map to `hardware`, every other
name maps to `unknown`; and `startCamera` always terminates in either a live
handle or an inline typed error state (never anything else), with the
initializing flag cleared. -/
theorem camera_error_classification (name : String) :
    ((classifyCameraError name).errType = .permission ↔
      name = "NotAllowedError" ∨ name = "PermissionDeniedError") ∧
    ((classifyCameraError name).errType = .hardware ↔
      name = "NotFoundError" ∨ name = "DevicesNotFoundError") ∧
    ((classifyCameraError name).errType = .unknown ↔
      ¬(name = "NotAllowedError" ∨ name = "PermissionDeniedError" ∨
        name = "NotFoundError" ∨ name = "DevicesNotFoundError")) ∧
    (∀ s, startCamera (.ok s) =
      { error := none, srcObject := some s, isInitializing := false }) ∧
    (startCamera (.error name) =
      { error := some (classifyCameraError name), srcObject := none
        isInitializing := false }) := by
  by_cases hp : name = "NotAllowedError" ∨ name = "PermissionDeniedError"
  · have he : (classifyCameraError name).errType = .permission := by
      simp [classifyCameraError, hp]
    have hq : ¬(name = "NotFoundError" ∨ name = "DevicesNotFoundError") := by
      rcases hp with h | h <;> subst h <;> decide
    refine ⟨?_, ?_, ?_, fun s => rfl, rfl⟩ <;> rw [he] <;> simp <;> tauto
  · by_cases hq : name = "NotFoundError" ∨ name = "DevicesNotFoundError"
    · have he : (classifyCameraError name).errType = .hardware := by
        simp [classifyCameraError, hp, hq]
      refine ⟨?_, ?_, ?_, fun s => rfl, rfl⟩ <;> rw [he] <;> simp <;> tauto
    · have he : (classifyCameraError name).errType = .unknown := by
        simp [classifyCameraError, hp, hq]
      refine ⟨?_, ?_, ?_, fun s => rfl, rfl⟩ <;> rw [he] <;> simp <;> tauto

/-- Witness for C8: an unrecognized platform error name lands in the
`unknown` category. -/
theorem camera_error_classification_witness :
    (classifyCameraError "QuotaExceededError").errType = .unknown :=
  (camera_error_classification "QuotaExceededError").2.2.1.mpr (by decide)

/-! ## Live session bridge teardown (`LiveAudio.tsx`, effect cleanup lines 200-207)

The effect cleanup is unconditional:
`cancelAnimationFrame`, `clearInterval(videoIntervalRef)`, stop every track of
`streamRef.current` (guarded only by the handle existing), close the input
audio context, close the output audio context.  Audio chunks are sent from the
`onaudioprocess` callback of a processor node of the input context, so they
can only occur while that context is open; video frames are sent from the
`videoIntervalRef` interval callback, so they can only occur while that
interval is live. -/

/-- Resource/lifecycle state of the live session bridge. -/
structure LiveBridgeState where
  streamLive : Bool
  trackStopCalls : Nat
  videoIntervalLive : Bool
  animationFrameLive : Bool
  inputCtxOpen : Bool
  outputCtxOpen : Bool
deriving DecidableEq, Repr

/-- The effect cleanup (lines 200-207), as a state transformer: every action
is performed unconditionally (the track stop is guarded only by the handle
being present, and stopping is what releases it). -/
def liveCleanup (s : LiveBridgeState) : LiveBridgeState :=
  { streamLive := false
    trackStopCalls := if s.streamLive then s.trackStopCalls + 1 else s.trackStopCalls
    videoIntervalLive := false
    animationFrameLive := false
    inputCtxOpen := false
    outputCtxOpen := false }

/-- The audio sample pipe can send only while the input audio context is open
(`processor.onaudioprocess`, lines 161-166). -/
def canSendAudio (s : LiveBridgeState) : Bool := s.inputCtxOpen

/-- The video frame pipe can send only while the video interval is live
(lines 173-194). -/
def canSendVideo (s : LiveBridgeState) : Bool := s.videoIntervalLive

/-- Claim C9: teardown unconditionally releases the media source, cancels
both cadences (audio pipe and video interval) and the visualizer frame, and
closes both audio contexts; afterwards neither pipe can issue a send to the
remote session; a live media handle is released exactly once — the stop call
happens on teardown and a hypothetical second teardown does not release
again. -/
theorem live_bridge_teardown (s : LiveBridgeState) :
    (liveCleanup s).streamLive = false ∧
    (liveCleanup s).videoIntervalLive = false ∧
    (liveCleanup s).animationFrameLive = false ∧
    (liveCleanup s).inputCtxOpen = false ∧
    (liveCleanup s).outputCtxOpen = false ∧
    canSendAudio (liveCleanup s) = false ∧
    canSendVideo (liveCleanup s) = false ∧
    (s.streamLive = true →
      (liveCleanup s).trackStopCalls = s.trackStopCalls + 1) ∧
    (liveCleanup (liveCleanup s)).trackStopCalls = (liveCleanup s).trackStopCalls := by
  refine ⟨rfl, rfl, rfl, rfl, rfl, rfl, rfl, ?_, ?_⟩
  · intro h; simp [liveCleanup, h]
  · simp [liveCleanup]

/-- Witness for C9: tearing down a fully live bridge that has never stopped a
track stops it exactly once and leaves nothing able to send. -/
theorem live_bridge_teardown_witness :
    (liveCleanup
        { streamLive := true, trackStopCalls := 0, videoIntervalLive := true
          animationFrameLive := true, inputCtxOpen := true
          outputCtxOpen := true }).trackStopCalls = 0 + 1 ∧
    canSendAudio (liveCleanup
        { streamLive := true, trackStopCalls := 0, videoIntervalLive := true
          animationFrameLive := true, inputCtxOpen := true
          outputCtxOpen := true }) = false :=
  ⟨(live_bridge_teardown
      { streamLive := true, trackStopCalls := 0, videoIntervalLive := true
        animationFrameLive := true, inputCtxOpen := true
        outputCtxOpen := true }).2.2.2.2.2.2.2.1 rfl,
    (live_bridge_teardown
      { streamLive := true, trackStopCalls := 0, videoIntervalLive := true
        animationFrameLive := true, inputCtxOpen := true
        outputCtxOpen := true }).2.2.2.2.2.1⟩

/-! ## Base64 audio codec helpers (service module, `encodeAudio` / `decodeAudio`)

`encodeAudio` turns a `Uint8Array` into a binary string (one char per byte,
`String.fromCharCode`) and applies `btoa`; `decodeAudio` applies `atob` and
reads the char codes back (`charCodeAt`).  Since `fromCharCode`/`charCodeAt`
are mutually inverse below 256, the pair is exactly RFC 4648 base64 over the
byte list, which is how we embed it: bytes are `Nat`s below 256. -/

/-- The base64 alphabet used by `btoa`/`atob`. -/
def base64Chars : List Char :=
  ['A', 'B', 'C', 'D', 'E', 'F', 'G', 'H', 'I', 'J', 'K', 'L', 'M',
   'N', 'O', 'P', 'Q', 'R', 'S', 'T', 'U', 'V', 'W', 'X', 'Y', 'Z',
   'a', 'b', 'c', 'd', 'e', 'f', 'g', 'h', 'i', 'j', 'k', 'l', 'm',
   'n', 'o', 'p', 'q', 'r', 's', 't', 'u', 'v', 'w', 'x', 'y', 'z',
   '0', '1', '2', '3', '4', '5', '6', '7', '8', '9', '+', '/']

/-- Sextet to base64 digit. -/
def b64Char (n : Nat) : Char := base64Chars.getD n '='

/-- Base64 digit back to sextet. -/
def b64Index (c : Char) : Nat := base64Chars.indexOf c

/-- `encodeAudio` (service module lines 186-193): `btoa` over the binary
string of the bytes, processing three bytes into four digits, `=`-padded. -/
def encodeAudio : List Nat → List Char
  | [] => []
  | [b0] => [b64Char (b0 / 4), b64Char (b0 % 4 * 16), '=', '=']
  | [b0, b1] =>
      [b64Char (b0 / 4), b64Char (b0 % 4 * 16 + b1 / 16),
       b64Char (b1 % 16 * 4), '=']
  | b0 :: b1 :: b2 :: rest =>
      b64Char (b0 / 4) :: b64Char (b0 % 4 * 16 + b1 / 16) ::
        b64Char (b1 % 16 * 4 + b2 / 64) :: b64Char (b2 % 64) :: encodeAudio rest

/-- `decodeAudio` (service module lines 157-165): `atob` back to the binary
string, then one byte per char code. -/
def decodeAudio : List Char → List Nat
  | c0 :: c1 :: c2 :: c3 :: rest =>
      if c2 = '=' then [b64Index c0 * 4 + b64Index c1 / 16]
      else if c3 = '=' then
        [b64Index c0 * 4 + b64Index c1 / 16,
         b64Index c1 % 16 * 16 + b64Index c2 / 4]
      else
        (b64Index c0 * 4 + b64Index c1 / 16) ::
          (b64Index c1 % 16 * 16 + b64Index c2 / 4) ::
          (b64Index c2 % 4 * 64 + b64Index c3) :: decodeAudio rest
  | _ => []

theorem b64Index_b64Char : ∀ n < 64, b64Index (b64Char n) = n := by decide

theorem b64Char_ne_pad : ∀ n < 64, b64Char n ≠ '=' := by decide

theorem sextet_decode0 (b0 b1 : Nat) (h1 : b1 < 256) :
    b0 / 4 * 4 + (b0 % 4 * 16 + b1 / 16) / 16 = b0 := by
  rw [Nat.mul_comm (b0 % 4) 16, Nat.mul_add_div (by norm_num),
    Nat.div_div_eq_div_mul]
  omega

theorem sextet_decode1 (b0 b1 b2 : Nat) (h1 : b1 < 256) (h2 : b2 < 256) :
    (b0 % 4 * 16 + b1 / 16) % 16 * 16 + (b1 % 16 * 4 + b2 / 64) / 4 = b1 := by
  rw [Nat.mul_comm (b0 % 4) 16, Nat.mul_add_mod, Nat.mul_comm (b1 % 16) 4,
    Nat.mul_add_div (by norm_num), Nat.div_div_eq_div_mul]
  omega

theorem sextet_decode2 (b1 b2 : Nat) (h2 : b2 < 256) :
    (b1 % 16 * 4 + b2 / 64) % 4 * 64 + b2 % 64 = b2 := by
  rw [Nat.mul_comm (b1 % 16) 4, Nat.mul_add_mod]
  omega

/-- Claim C10: the audio codec helpers are mutually inverse — decoding an
encoded byte array returns it unchanged (bytes of a `Uint8Array` are below
256). -/
theorem decodeAudio_encodeAudio :
    ∀ bs : List Nat, (∀ b ∈ bs, b < 256) → decodeAudio (encodeAudio bs) = bs
  | [], _ => rfl
  | [b0], h => by
      have hb0 : b0 < 256 := h b0 (by simp)
      have h1 : b0 / 4 < 64 := by omega
      have h2 : b0 % 4 * 16 < 64 := by omega
      simp only [encodeAudio, decodeAudio, if_pos rfl,
        b64Index_b64Char _ h1, b64Index_b64Char _ h2, List.cons.injEq, and_true]
      have := sextet_decode0 b0 0 (by norm_num)
      simpa using this
  | [b0, b1], h => by
      have hb0 : b0 < 256 := h b0 (by simp)
      have hb1 : b1 < 256 := h b1 (by simp)
      have h1 : b0 / 4 < 64 := by omega
      have h2 : b0 % 4 * 16 + b1 / 16 < 64 := by omega
      have h3 : b1 % 16 * 4 < 64 := by omega
      simp only [encodeAudio, decodeAudio, if_neg (b64Char_ne_pad _ h3),
        if_pos rfl, if_true, b64Index_b64Char _ h1, b64Index_b64Char _ h2,
        b64Index_b64Char _ h3, List.cons.injEq, and_true]
      refine ⟨sextet_decode0 b0 b1 hb1, ?_⟩
      have := sextet_decode1 b0 b1 0 hb1 (by norm_num)
      simpa using this
  | [b0, b1, b2], h => by
      have hb0 : b0 < 256 := h b0 (by simp)
      have hb1 : b1 < 256 := h b1 (by simp)
      have hb2 : b2 < 256 := h b2 (by simp)
      have h1 : b0 / 4 < 64 := by omega
      have h2 : b0 % 4 * 16 + b1 / 16 < 64 := by omega
      have h3 : b1 % 16 * 4 + b2 / 64 < 64 := by omega
      have h4 : b2 % 64 < 64 := by omega
      simp only [encodeAudio, decodeAudio, if_neg (b64Char_ne_pad _ h3),
        if_neg (b64Char_ne_pad _ h4), b64Index_b64Char _ h1,
        b64Index_b64Char _ h2, b64Index_b64Char _ h3, b64Index_b64Char _ h4,
        List.cons.injEq, and_true]
      exact ⟨sextet_decode0 b0 b1 hb1, sextet_decode1 b0 b1 b2 hb1 hb2,
        sextet_decode2 b1 b2 hb2⟩
  | b0 :: b1 :: b2 :: b3 :: rest, h => by
      have hb0 : b0 < 256 := h b0 (by simp)
      have hb1 : b1 < 256 := h b1 (by simp)
      have hb2 : b2 < 256 := h b2 (by simp)
      have h1 : b0 / 4 < 64 := by omega
      have h2 : b0 % 4 * 16 + b1 / 16 < 64 := by omega
      have h3 : b1 % 16 * 4 + b2 / 64 < 64 := by omega
      have h4 : b2 % 64 < 64 := by omega
      have ih := decodeAudio_encodeAudio (b3 :: rest)
        (fun b hb => h b (by simp at hb ⊢; tauto))
      simp only [encodeAudio, decodeAudio, if_neg (b64Char_ne_pad _ h3),
        if_neg (b64Char_ne_pad _ h4), b64Index_b64Char _ h1,
        b64Index_b64Char _ h2, b64Index_b64Char _ h3, b64Index_b64Char _ h4,
        ih, List.cons.injEq, and_true]
      exact ⟨sextet_decode0 b0 b1 hb1, sextet_decode1 b0 b1 b2 hb1 hb2,
        sextet_decode2 b1 b2 hb2⟩

/-- Witness for C10 at a concrete byte array (lengths 5, exercising the
two-byte padding tail). -/
theorem decodeAudio_encodeAudio_witness :
    decodeAudio (encodeAudio [0, 255, 16, 100, 7]) = [0, 255, 16, 100, 7] :=
  decodeAudio_encodeAudio [0, 255, 16, 100, 7] (by decide)

end ChronosGaia
